import Mathlib

/-!
Verification development for the ranking request handler in `src/api/rank.js`.

The handler is a linear pipeline: origin guard, CORS headers, OPTIONS
short-circuit, method check, sliding-window rate limiter, body
normalization, query validation, credential check, upstream call,
upstream-response validation, and a single response emission.

The embedding below is a faithful shallow model of that pipeline.  JSON
values are modeled by an inductive `Json` type; the JavaScript builtins the
handler relies on (`JSON.parse`, `String.prototype.trim`, the global
regex replace of code-fence markers) are modeled as executable Lean
functions.  JavaScript `null` is `Json.null`; `undefined` is represented
by `Option.none` where a distinction matters.  JSON numbers are modeled
as integers (no claim concerns fractional numbers).  An exception that
escapes the handler (an unhandled rejection reaching the transport) is
modeled as `Except.error` in the handler result.
-/

namespace RankApi

/-- JSON values, as produced by `JSON.parse` and consumed by the handler. -/
inductive Json where
  | null
  | bool (b : Bool)
  | num (n : Int)
  | str (s : String)
  | arr (elems : List Json)
  | obj (fields : List (String × Json))

/- Named characters, used instead of literals inside the parser. -/

/-- The double-quote character. -/
def qc : Char := Char.ofNat 34

/-- The backslash character. -/
def bsl : Char := Char.ofNat 92

/-- The opening curly brace character. -/
def lbrace : Char := Char.ofNat 123

/-- The closing curly brace character. -/
def rbrace : Char := Char.ofNat 125

/-- The backquote character used by code-fence markers. -/
def bq : Char := Char.ofNat 96

/-- JSON / JavaScript whitespace recognized by the model: space, tab,
line feed, carriage return. -/
def isWs (c : Char) : Bool :=
  c = ' ' || c = Char.ofNat 9 || c = Char.ofNat 10 || c = Char.ofNat 13

/-- Drop leading whitespace. -/
def skipWs : List Char → List Char
  | c :: rest => if isWs c then skipWs rest else c :: rest
  | [] => []

/-- Value of a hexadecimal digit, used for `\uXXXX` escapes. -/
def hexVal (c : Char) : Option Nat :=
  if c.isDigit then some (c.toNat - 48)
  else if 'a' ≤ c ∧ c ≤ 'f' then some (c.toNat - 87)
  else if 'A' ≤ c ∧ c ≤ 'F' then some (c.toNat - 55)
  else none

/-- Numeric value of a digit string. -/
def digitsVal (ds : List Char) : Nat :=
  ds.foldl (fun a c => a * 10 + (c.toNat - 48)) 0

/-- Parse a JSON number (modeled as an optionally signed integer). -/
def parseNum (l : List Char) : Option (Json × List Char) :=
  match l with
  | '-' :: rest =>
    let ds := rest.takeWhile Char.isDigit
    let rs := rest.dropWhile Char.isDigit
    if ds = [] then none else some (Json.num (-(Int.ofNat (digitsVal ds))), rs)
  | _ =>
    let ds := l.takeWhile Char.isDigit
    let rs := l.dropWhile Char.isDigit
    if ds = [] then none else some (Json.num (Int.ofNat (digitsVal ds)), rs)

/-- Parse the body of a JSON string literal (after the opening quote),
returning the decoded characters and the rest of the input after the
closing quote.  Fuel-indexed so the recursion is structural. -/
def parseStrBody : Nat → List Char → Option (List Char × List Char)
  | 0, _ => none
  | _, [] => none
  | Nat.succ fuel, c :: rest =>
    let cont := fun (ch : Char) (r : List Char) =>
      Option.map (fun p => (ch :: p.1, p.2)) (parseStrBody fuel r)
    if c = qc then some ([], rest)
    else if c = bsl then
      match rest with
      | [] => none
      | e :: rest2 =>
        if e = qc then cont qc rest2
        else if e = bsl then cont bsl rest2
        else if e = '/' then cont '/' rest2
        else if e = 'n' then cont (Char.ofNat 10) rest2
        else if e = 't' then cont (Char.ofNat 9) rest2
        else if e = 'r' then cont (Char.ofNat 13) rest2
        else if e = 'b' then cont (Char.ofNat 8) rest2
        else if e = 'f' then cont (Char.ofNat 12) rest2
        else if e = 'u' then
          match rest2 with
          | h1 :: h2 :: h3 :: h4 :: rest3 =>
            match hexVal h1, hexVal h2, hexVal h3, hexVal h4 with
            | some v1, some v2, some v3, some v4 =>
              cont (Char.ofNat (((v1 * 16 + v2) * 16 + v3) * 16 + v4)) rest3
            | _, _, _, _ => none
          | _ => none
        else none
    else cont c rest

mutual

/-- Parse one JSON value.  Models `JSON.parse` – fuel-indexed recursive
descent over characters. -/
def parseVal : Nat → List Char → Option (Json × List Char)
  | 0, _ => none
  | Nat.succ fuel, l =>
    match skipWs l with
    | [] => none
    | c :: rest =>
      if c = qc then
        match parseStrBody fuel rest with
        | some (cs, r2) => some (Json.str (String.mk cs), r2)
        | none => none
      else if c = lbrace then
        match skipWs rest with
        | [] => none
        | c2 :: r2 =>
          if c2 = rbrace then some (Json.obj [], r2)
          else
            match parseObjItems fuel (c2 :: r2) with
            | some (fs, r3) => some (Json.obj fs, r3)
            | none => none
      else if c = '[' then
        match skipWs rest with
        | [] => none
        | c2 :: r2 =>
          if c2 = ']' then some (Json.arr [], r2)
          else
            match parseArrItems fuel (c2 :: r2) with
            | some (vs, r3) => some (Json.arr vs, r3)
            | none => none
      else if c = 'n' then
        match rest with
        | 'u' :: 'l' :: 'l' :: r2 => some (Json.null, r2)
        | _ => none
      else if c = 't' then
        match rest with
        | 'r' :: 'u' :: 'e' :: r2 => some (Json.bool true, r2)
        | _ => none
      else if c = 'f' then
        match rest with
        | 'a' :: 'l' :: 's' :: 'e' :: r2 => some (Json.bool false, r2)
        | _ => none
      else parseNum (c :: rest)

/-- Parse the items of a non-empty JSON array (positioned at the first
element). -/
def parseArrItems : Nat → List Char → Option (List Json × List Char)
  | 0, _ => none
  | Nat.succ fuel, l =>
    match parseVal fuel l with
    | none => none
    | some (v, r) =>
      match skipWs r with
      | [] => none
      | c :: r2 =>
        if c = ',' then
          match parseArrItems fuel r2 with
          | some (vs, r3) => some (v :: vs, r3)
          | none => none
        else if c = ']' then some ([v], r2)
        else none

/-- Parse the fields of a non-empty JSON object (positioned at the first
key). -/
def parseObjItems : Nat → List Char → Option (List (String × Json) × List Char)
  | 0, _ => none
  | Nat.succ fuel, l =>
    match skipWs l with
    | [] => none
    | c :: r =>
      if c = qc then
        match parseStrBody fuel r with
        | none => none
        | some (kcs, r2) =>
          match skipWs r2 with
          | [] => none
          | c2 :: r3 =>
            if c2 = ':' then
              match parseVal fuel r3 with
              | none => none
              | some (v, r4) =>
                match skipWs r4 with
                | [] => none
                | c3 :: r5 =>
                  if c3 = ',' then
                    match parseObjItems fuel r5 with
                    | some (fs, r6) => some ((String.mk kcs, v) :: fs, r6)
                    | none => none
                  else if c3 = rbrace then some ([(String.mk kcs, v)], r5)
                  else none
            else none
      else none

end

/-- Models `JSON.parse`: parse a complete JSON document; `none` models a thrown
`SyntaxError`. -/
def jsonParse (s : String) : Option Json :=
  match parseVal (s.data.length + 2) s.data with
  | some (v, rest) => if skipWs rest = [] then some v else none
  | none => none

/-- Models `String.prototype.trim` on character lists. -/
def trimChars (l : List Char) : List Char :=
  (((l.dropWhile fun c => isWs c).reverse.dropWhile fun c => isWs c)).reverse

/-- Models `String.prototype.trim`. -/
def jsTrim (s : String) : String := String.mk (trimChars s.data)

/-- The four characters `json` in lower case, compared case-insensitively
(the regex carries the `i` flag). -/
def isJsonWord (c1 c2 c3 c4 : Char) : Bool :=
  c1.toLower = 'j' && c2.toLower = 's' && c3.toLower = 'o' && c4.toLower = 'n'

/-- Global replacement of the code-fence markers with the empty string:
models `raw.replace(/```json|```/gi, '')`.  The scan is leftmost,
non-overlapping; at each position the seven-character alternative
(three backquotes followed by `json`, any case) is preferred to the
three-backquote alternative, exactly as in the regex alternation. -/
def stripFences : List Char → List Char
  | a :: b :: c :: c1 :: c2 :: c3 :: c4 :: rest =>
    if a = bq ∧ b = bq ∧ c = bq then
      if isJsonWord c1 c2 c3 c4 then stripFences rest
      else stripFences (c1 :: c2 :: c3 :: c4 :: rest)
    else a :: stripFences (b :: c :: c1 :: c2 :: c3 :: c4 :: rest)
  | a :: b :: c :: rest =>
    if a = bq ∧ b = bq ∧ c = bq then stripFences rest
    else a :: stripFences (b :: c :: rest)
  | a :: rest => a :: stripFences rest
  | [] => []

/-- Fence stripping on strings. -/
def jsStripFences (s : String) : String := String.mk (stripFences s.data)

/-! ## JavaScript value helpers -/

/-- JavaScript truthiness of a JSON value. -/
def jsTruthy : Json → Bool
  | Json.null => false
  | Json.bool b => b
  | Json.num n => n != 0
  | Json.str s => s != ""
  | Json.arr _ => true
  | Json.obj _ => true

/-- The `=== null` test. -/
def isNull : Json → Bool
  | Json.null => true
  | _ => false

/-- Property access `v.k` on a value known not to be `null`: a lookup on
objects, `undefined` (`none`) on all other values. -/
def jmem : Json → String → Option Json
  | Json.obj fs, k => List.lookup k fs
  | _, _ => none

/-- Optional-chaining property access `v?.k`: `undefined` when the base is
absent or `null`, otherwise a plain property access. -/
def jmemOpt : Option Json → String → Option Json
  | some (Json.obj fs), k => List.lookup k fs
  | _, _ => none

/-- Optional-chaining index access `v?.[0]`. -/
def jindex0 : Option Json → Option Json
  | some (Json.arr (x :: _)) => some x
  | some (Json.str s) =>
    match s.data with
    | c :: _ => some (Json.str (String.mk [c]))
    | [] => none
  | some (Json.obj fs) => List.lookup "0" fs
  | _ => none

/-! ## Rate limiter (`takeRateLimitSlot`, src/api/rank.js lines 40–50) -/

/-- Models `takeRateLimitSlot(key, now)` for one client key, parameterized by the
configured window width `W` (`RATE_LIMIT_WINDOW_MS`) and admission
ceiling `C` (`RATE_LIMIT_MAX`).  Input: the stored timestamp list for the
key; output: the admission decision and the list persisted back to the
store. -/
def takeRateLimitSlot (W : Int) (C : Nat) (entries : List Int) (now : Int) :
    Bool × List Int :=
  let recent := entries.filter fun ts => now - ts < W
  if C ≤ recent.length then (false, recent)
  else (true, recent ++ [now])

/-! ## Request normalization (`parseBody`, src/api/rank.js lines 75–103) -/

/-- Models `parseBody(req)`.  Here `body = none` models an absent (`undefined`)
`req.body`; `streamData` is the text a raw-stream body accumulates.
A truthy object body (object or array) is used directly; a string body
is JSON-parsed with a parse failure mapped to `null`; any other body
falls to the stream path, where an empty stream yields `{}` and a
non-empty stream is JSON-parsed with failure mapped to `null`.  Note the
conflation at the heart of claim C10: a successful parse of the document
`null` is indistinguishable from the failure signal. -/
def parseBody (body : Option Json) (streamData : String) : Json :=
  match body with
  | some (Json.obj fs) => Json.obj fs
  | some (Json.arr xs) => Json.arr xs
  | some (Json.str s) => (jsonParse s).getD Json.null
  | _ =>
    if streamData = "" then Json.obj []
    else (jsonParse streamData).getD Json.null

/-! ## Origin guard (src/api/rank.js lines 15–29) -/

/-- Models `isOriginAllowed(origin)` with the configured allow-list. -/
def isOriginAllowed (allowed : List String) (origin : String) : Bool :=
  if origin = "" ∨ allowed = [] then true
  else allowed.contains origin

/-- The guard taken at the top of the handler:
`origin && !isOriginAllowed(origin)`. -/
def originDenied (allowed : List String) (origin : String) : Bool :=
  !(origin == "") && !(isOriginAllowed allowed origin)

/-- Headers attached by `applyCorsHeaders` for a truthy origin. -/
def corsHeaders (origin : String) : List (String × String) :=
  [("Access-Control-Allow-Origin", origin),
   ("Access-Control-Allow-Methods", "POST, OPTIONS"),
   ("Access-Control-Allow-Headers", "Content-Type"),
   ("Vary", "Origin")]

/-- The CORS headers present on a response, given the request origin:
attached exactly when the origin is truthy. -/
def corsFor (origin : String) : List (String × String) :=
  if origin = "" then [] else corsHeaders origin

/-! ## Response emission (`respond`, src/api/rank.js lines 52–73) -/

/-- An emitted HTTP response: status, headers, and an optional JSON body. -/
structure Response where
  status : Nat
  headers : List (String × String)
  body : Option Json

/-- Models `respond(res, statusCode, payload)`: sets the status, appends the JSON
content type to headers already applied, and emits the payload once. -/
def respond (cors : List (String × String)) (status : Nat) (payload : Json) :
    Response :=
  ⟨status, cors ++ [("Content-Type", "application/json")], some payload⟩

/-- An error payload `{ error }`. -/
def errJson (msg : String) : Json := Json.obj [("error", Json.str msg)]

/-- An error payload `{ error, details }`. -/
def errJsonD (msg details : String) : Json :=
  Json.obj [("error", Json.str msg), ("details", Json.str details)]

/-! ## Upstream call and response validation (src/api/rank.js lines 168–213) -/

/-- Behavior of the awaited upstream exchange, as observed by the handler:
either some step of the exchange throws (network error, body
deserialization fault – the message is the thrown error message), or the
response arrives with a non-success status and a raw body text, or it
arrives successfully with parsed JSON data. -/
inductive UpstreamBehavior where
  | throws (msg : String)
  | httpError (status : Nat) (bodyText : String)
  | success (data : Json)

/-- Models `data?.choices?.[0]?.message?.content?.trim()`.  Yields the trimmed
completion text, `none` when any link of the chain is nullish, and a
thrown `TypeError` (modeled by `Except.error`) when `content` is present
but is not a string (`.trim` is then not a function). -/
def extractRaw (data : Json) : Except String (Option String) :=
  let content :=
    jmemOpt (jmemOpt (jindex0 (jmemOpt (some data) "choices")) "message") "content"
  match content with
  | none => Except.ok none
  | some Json.null => Except.ok none
  | some (Json.str s) => Except.ok (some (jsTrim s))
  | some _ => Except.error "data.choices[0].message.content.trim is not a function"

/-- The structural check
`typeof parsed.primary !== 'string' || !Array.isArray(parsed.secondary)`.
Property access on a parsed `null` throws a `TypeError` (modeled by
`Except.error`); otherwise the check returns whether the shape is
accepted. -/
def validateShape (parsed : Json) : Except String Bool :=
  match parsed with
  | Json.null => Except.error "Cannot read properties of null (reading primary)"
  | p =>
    let pOk := match jmem p "primary" with
      | some (Json.str _) => true
      | _ => false
    let sOk := match jmem p "secondary" with
      | some (Json.arr _) => true
      | _ => false
    Except.ok (pOk && sOk)

/-- The body of the `try` block around the upstream call, from the `fetch`
result onward (src/api/rank.js lines 168–213), including the enclosing
`catch`: every exception thrown inside the block is converted to the
500-class catch-all response. -/
def processUpstream (cors : List (String × String)) (up : UpstreamBehavior) :
    Response :=
  match up with
  | UpstreamBehavior.throws msg =>
    respond cors 500 (errJsonD "Unable to complete ranking request." msg)
  | UpstreamBehavior.httpError status bodyText =>
    respond cors status (errJsonD "ChatGPT API error." bodyText)
  | UpstreamBehavior.success data =>
    match extractRaw data with
    | Except.error msg =>
      respond cors 500 (errJsonD "Unable to complete ranking request." msg)
    | Except.ok raw =>
      if raw.getD "" = "" then
        respond cors 502 (errJson "ChatGPT returned an empty response.")
      else
        match jsonParse (jsTrim (jsStripFences (raw.getD ""))) with
        | none =>
          respond cors 502 (errJson "Unable to parse ChatGPT ranking response.")
        | some parsed =>
          match validateShape parsed with
          | Except.error msg =>
            respond cors 500 (errJsonD "Unable to complete ranking request." msg)
          | Except.ok true => respond cors 200 parsed
          | Except.ok false =>
            respond cors 502 (errJson "ChatGPT returned unexpected data.")

/-! ## The handler (src/api/rank.js lines 105–214) -/

/-- An inbound request as the handler observes it: the method and origin
header (absent values modeled by `none`), the transport-provided body,
and the text available on the raw stream. -/
structure Request where
  method : Option String
  origin : Option String
  body : Option Json
  streamData : String

/-- Everything observable about one handler invocation: the emitted
response, the rate-limit entries persisted for the client key, and
whether the rate limiter and the upstream call were reached. -/
structure HandlerOutput where
  resp : Response
  entries : List Int
  rateLimiterCalled : Bool
  upstreamCalled : Bool

/-- Models `req.method && req.method !== 'POST'`: a truthy method other than
`POST` (an absent or empty method is accepted as a defensive default). -/
def methodNotPost : Option String → Bool
  | none => false
  | some m => !(m == "") && !(m == "POST")

/-- Models `(parsedBody.query || '')`. -/
def queryVal (parsedBody : Json) : Json :=
  match jmem parsedBody "query" with
  | some v => if jsTruthy v then v else Json.str ""
  | none => Json.str ""

/-- Models `value.trim()` on the query value: trims a string, throws a
`TypeError` on any non-string value. -/
def trimOrThrow : Json → Except String String
  | Json.str s => Except.ok (jsTrim s)
  | _ => Except.error "TypeError: parsedBody.query.trim is not a function"

/-- Models `!apiKey`: the upstream credential is absent or empty. -/
def apiKeyMissing : Option String → Bool
  | none => true
  | some k => k == ""

/-- The async `handler(req, res)`, evaluated against one client key whose
stored rate-limit entries are `entries`, at time `now`, with the
upstream exchange behaving as `up`.  `Except.error` models an exception
escaping the handler (an unhandled rejection reaching the transport);
`Except.ok` carries the emitted response and the observable effects. -/
def handler (cfg_allowedOrigins : List String) (cfg_W : Int) (cfg_C : Nat)
    (cfg_apiKey : Option String) (req : Request) (entries : List Int)
    (now : Int) (up : UpstreamBehavior) : Except String HandlerOutput :=
  let origin := req.origin.getD ""
  if originDenied cfg_allowedOrigins origin then
    Except.ok ⟨respond [] 403 (errJson "Origin not allowed."), entries, false, false⟩
  else if req.method = some "OPTIONS" then
    Except.ok ⟨⟨204, corsFor origin, none⟩, entries, false, false⟩
  else if methodNotPost req.method then
    Except.ok ⟨respond (corsFor origin) 405 (errJson "Method not allowed. Use POST."),
      entries, false, false⟩
  else
    let slot := takeRateLimitSlot cfg_W cfg_C entries now
    if slot.1 = false then
      Except.ok ⟨respond (corsFor origin) 429
        (errJson "Rate limit exceeded. Please wait a moment and try again."),
        slot.2, true, false⟩
    else
      let parsedBody := parseBody req.body req.streamData
      if isNull parsedBody then
        Except.ok ⟨respond (corsFor origin) 400 (errJson "Invalid JSON body."),
          slot.2, true, false⟩
      else
        match trimOrThrow (queryVal parsedBody) with
        | Except.error msg => Except.error msg
        | Except.ok userQuery =>
          if userQuery = "" then
            Except.ok ⟨respond (corsFor origin) 400 (errJson "Query is required."),
              slot.2, true, false⟩
          else if apiKeyMissing cfg_apiKey then
            Except.ok ⟨respond (corsFor origin) 500
              (errJson "Server misconfiguration: missing OpenAI API key."),
              slot.2, true, false⟩
          else
            Except.ok ⟨processUpstream (corsFor origin) up, slot.2, true, true⟩

/-! ## Concrete values used in witnesses and counterexamples -/

/-- A successful upstream reply whose single choice carries the completion
text `t`. -/
def mkCompletion (t : String) : Json :=
  Json.obj [("choices",
    Json.arr [Json.obj [("message", Json.obj [("content", Json.str t)])]])]

/-- The completion text wrapped in code-fence markers, as in the spec
example. -/
def fencedForm (t : String) : String := "```json\n" ++ t ++ "\n```"

/-- A well-formed request body `{ query: "chicken soup" }`. -/
def okBody : Json := Json.obj [("query", Json.str "chicken soup")]

/-- An upstream reply carrying the spec example ranking. -/
def goodUp : UpstreamBehavior :=
  UpstreamBehavior.success
    (mkCompletion "\x7b\"primary\":\"R01\",\"secondary\":[\"R02\",\"R03\"]\x7d")

/-! ## C1 – sliding-window rate limiter -/

/-- C1: for every client key, with window width `W` and ceiling `C`, an
admission check at time `now` is denied iff at least `C` stored
timestamps `ts` satisfy `now - ts < W`; on denial the stored list becomes
exactly the pruned in-window list (`now` is not appended), on admission
it becomes the pruned list with `now` appended; the stored in-window
count never exceeds `C`; and admission resumes once logged timestamps
fall outside the window – both when all have expired and, under the
length invariant, as soon as the oldest one has. -/
theorem rateLimiter_sliding_window_correct (W : Int) (C : Nat)
    (entries : List Int) (now : Int) (hC : 0 < C) :
    ((takeRateLimitSlot W C entries now).1 = false ↔
        C ≤ (entries.filter fun ts => now - ts < W).length)
    ∧ ((takeRateLimitSlot W C entries now).1 = false →
        (takeRateLimitSlot W C entries now).2 =
          entries.filter fun ts => now - ts < W)
    ∧ ((takeRateLimitSlot W C entries now).1 = true →
        (takeRateLimitSlot W C entries now).2 =
          (entries.filter fun ts => now - ts < W) ++ [now])
    ∧ ((entries.filter fun ts => now - ts < W).length ≤ C →
        (((takeRateLimitSlot W C entries now).2).filter
            fun ts => now - ts < W).length ≤ C)
    ∧ ((∀ ts ∈ entries, W ≤ now - ts) →
        (takeRateLimitSlot W C entries now).1 = true)
    ∧ (entries.length ≤ C → (∃ ts ∈ entries, W ≤ now - ts) →
        (takeRateLimitSlot W C entries now).1 = true) := by
  have hrec : ((entries.filter fun ts => now - ts < W).filter fun ts => now - ts < W) =
      entries.filter fun ts => now - ts < W := by
    rw [List.filter_filter]
    simp
  by_cases h : C ≤ (entries.filter fun ts => now - ts < W).length
  · have hres : takeRateLimitSlot W C entries now =
        (false, entries.filter fun ts => now - ts < W) := by
      simp [takeRateLimitSlot, h]
    rw [hres]
    refine ⟨by simpa using h, fun _ => rfl, by simp, ?_, ?_, ?_⟩
    · intro hle
      simpa [hrec] using hle
    · intro hall
      exfalso
      have hnil : entries.filter (fun ts => now - ts < W) = [] :=
        List.filter_eq_nil_iff.2 fun ts hts => by
          simpa using not_lt.2 (hall ts hts)
      rw [hnil] at h
      simp at h
      omega
    · intro hlen hex
      exfalso
      obtain ⟨ts0, hmem, hout⟩ := hex
      have hmem2 : ts0 ∈ entries.filter (fun ts => !(decide (now - ts < W))) :=
        List.mem_filter.2 ⟨hmem, by simp; omega⟩
      have hpos := List.length_pos_of_mem hmem2
      have hsplit :=
        List.length_eq_length_filter_add (l := entries) (fun ts => decide (now - ts < W))
      have hC2 : C ≤ (entries.filter fun ts => decide (now - ts < W)).length := h
      omega
  · have hres : takeRateLimitSlot W C entries now =
        (true, (entries.filter fun ts => now - ts < W) ++ [now]) := by
      simp [takeRateLimitSlot, h]
    have hlt : (entries.filter fun ts => now - ts < W).length < C := lt_of_not_le h
    rw [hres]
    refine ⟨by simpa using h, by simp, fun _ => rfl, ?_, fun _ => rfl, fun _ _ => rfl⟩
    intro _
    have h2 : (([now] : List Int).filter fun ts => now - ts < W).length ≤ 1 :=
      le_trans (List.length_filter_le _ _) (by simp)
    simp only [List.filter_append, List.length_append, hrec]
    omega

/-- Witness for C1 at the configured defaults (window 60000 ms, ceiling
5): the five stored in-window timestamps deny a sixth attempt. -/
theorem rateLimiter_sliding_window_correct_witness :
    (0 < 5
      ∧ ((takeRateLimitSlot 60000 5 [0, 1, 2, 3, 4] 5).1 = false ↔
          5 ≤ (([0, 1, 2, 3, 4] : List Int).filter fun ts => (5 : Int) - ts < 60000).length))
    ∧ (takeRateLimitSlot 60000 5 [0, 1, 2, 3, 4] 5).1 = false :=
  ⟨⟨by decide, (rateLimiter_sliding_window_correct 60000 5 [0, 1, 2, 3, 4] 5 (by decide)).1⟩,
    by decide⟩

/-! ## C3 – propagation policy -/

/-- C3 (refuted – code bug): a POST whose JSON body carries a truthy
non-string `query` (here the number 5) makes
`(parsedBody.query || '').trim()` throw a TypeError outside every
try/catch in the handler; the exception propagates unhandled to the
transport layer instead of being converted to a structured JSON error
response. -/
theorem nonstring_query_uncaught_typeerror :
    handler [] 60000 5 (some "k")
      ⟨some "POST", none, some (Json.obj [("query", Json.num 5)]), ""⟩ [] 0
      (UpstreamBehavior.throws "never reached") =
    Except.error "TypeError: parsedBody.query.trim is not a function" := rfl

/-! ## C6 – OPTIONS short-circuit -/

/-- C6: an `OPTIONS` request with an admitted origin terminates with a
204 no-content response carrying only the CORS headers; the rate-limit
store is untouched and neither the rate limiter nor the upstream call is
reached. -/
theorem options_short_circuit (allowed : List String) (W : Int) (C : Nat)
    (key : Option String) (o : Option String) (b : Option Json) (sd : String)
    (entries : List Int) (now : Int) (up : UpstreamBehavior)
    (hAdmit : originDenied allowed (o.getD "") = false) :
    handler allowed W C key ⟨some "OPTIONS", o, b, sd⟩ entries now up =
      Except.ok ⟨⟨204, corsFor (o.getD ""), none⟩, entries, false, false⟩ := by
  simp [handler, hAdmit]

/-- Witness for C6: a concrete OPTIONS preflight from an origin admitted
by the empty allow-list. -/
theorem options_short_circuit_witness :
    originDenied [] ((some "https://a.example" : Option String).getD "") = false
    ∧ handler [] 60000 5 (some "k")
        ⟨some "OPTIONS", some "https://a.example", none, ""⟩ [] 0 goodUp =
      Except.ok ⟨⟨204, corsFor "https://a.example", none⟩, [], false, false⟩ :=
  ⟨by decide,
    options_short_circuit [] 60000 5 (some "k") (some "https://a.example")
      none "" [] 0 goodUp (by decide)⟩

/-! ## C7 – body normalization totality -/

/-- C7: body normalization is total over the three inbound shapes: a
pre-parsed object body is used directly; a string body that is not valid
JSON yields the 400 Invalid-JSON-body outcome as an ordinary response
(no thrown parse exception); an empty stream body normalizes to `{}` and
the request then fails query validation with the 400 Query-required
outcome, not the invalid-body outcome. -/
theorem body_normalization_total (allowed : List String) (W : Int) (C : Nat)
    (key : Option String) (o : Option String) (sd : String) (entries : List Int)
    (now : Int) (up : UpstreamBehavior)
    (hAdmit : originDenied allowed (o.getD "") = false)
    (hRate : (takeRateLimitSlot W C entries now).1 = true) :
    (∀ fs, parseBody (some (Json.obj fs)) sd = Json.obj fs)
    ∧ (∀ s, jsonParse s = none →
        handler allowed W C key ⟨some "POST", o, some (Json.str s), sd⟩ entries now up =
          Except.ok ⟨respond (corsFor (o.getD "")) 400 (errJson "Invalid JSON body."),
            (takeRateLimitSlot W C entries now).2, true, false⟩)
    ∧ parseBody none "" = Json.obj []
    ∧ handler allowed W C key ⟨some "POST", o, none, ""⟩ entries now up =
        Except.ok ⟨respond (corsFor (o.getD "")) 400 (errJson "Query is required."),
          (takeRateLimitSlot W C entries now).2, true, false⟩ := by
  refine ⟨fun fs => rfl, ?_, rfl, ?_⟩
  · intro s hs
    simp [handler, hAdmit, methodNotPost, hRate, parseBody, hs, isNull]
  · simp [handler, hAdmit, methodNotPost, hRate, parseBody, isNull, queryVal,
      jmem, trimOrThrow, jsTrim, trimChars]

/-- Witness for C7 at concrete inputs: the string body `not json` and the
empty stream body. -/
theorem body_normalization_total_witness :
    (originDenied [] ((none : Option String).getD "") = false
      ∧ (takeRateLimitSlot 60000 5 [] 0).1 = true
      ∧ jsonParse "not json" = none)
    ∧ handler [] 60000 5 (some "k")
        ⟨some "POST", none, some (Json.str "not json"), ""⟩ [] 0 goodUp =
      Except.ok ⟨respond (corsFor "") 400 (errJson "Invalid JSON body."),
        (takeRateLimitSlot 60000 5 [] 0).2, true, false⟩
    ∧ handler [] 60000 5 (some "k") ⟨some "POST", none, none, ""⟩ [] 0 goodUp =
      Except.ok ⟨respond (corsFor "") 400 (errJson "Query is required."),
        (takeRateLimitSlot 60000 5 [] 0).2, true, false⟩ :=
  ⟨⟨by decide, by decide, rfl⟩,
    (body_normalization_total [] 60000 5 (some "k") none "" [] 0 goodUp
      (by decide) (by decide)).2.1 "not json" rfl,
    (body_normalization_total [] 60000 5 (some "k") none "" [] 0 goodUp
      (by decide) (by decide)).2.2.2⟩

/-! ## C8 – missing credential -/

/-- C8: when the upstream API credential is absent, a request that passes
the origin, method, rate-limit, body and query checks receives the 500
server-misconfiguration response and the upstream call is never
attempted. -/
theorem missing_credential_500_no_upstream (allowed : List String) (W : Int)
    (C : Nat) (m : Option String) (o : Option String) (b : Option Json)
    (sd : String) (entries : List Int) (now : Int) (up : UpstreamBehavior)
    (q : String)
    (hAdmit : originDenied allowed (o.getD "") = false)
    (hOpt : ¬ m = some "OPTIONS")
    (hMeth : methodNotPost m = false)
    (hRate : (takeRateLimitSlot W C entries now).1 = true)
    (hBody : isNull (parseBody b sd) = false)
    (hQuery : trimOrThrow (queryVal (parseBody b sd)) = Except.ok q)
    (hQne : ¬ q = "") :
    handler allowed W C none ⟨m, o, b, sd⟩ entries now up =
      Except.ok ⟨respond (corsFor (o.getD "")) 500
        (errJson "Server misconfiguration: missing OpenAI API key."),
        (takeRateLimitSlot W C entries now).2, true, false⟩ := by
  simp [handler, hAdmit, hOpt, hMeth, hRate, hBody, hQuery, hQne, apiKeyMissing]

/-- Witness for C8: a concrete well-formed POST with no credential
configured. -/
theorem missing_credential_500_no_upstream_witness :
    (isNull (parseBody (some okBody) "") = false
      ∧ trimOrThrow (queryVal (parseBody (some okBody) "")) = Except.ok "chicken soup")
    ∧ handler [] 60000 5 none ⟨some "POST", none, some okBody, ""⟩ [] 0 goodUp =
      Except.ok ⟨respond (corsFor "") 500
        (errJson "Server misconfiguration: missing OpenAI API key."),
        (takeRateLimitSlot 60000 5 [] 0).2, true, false⟩ :=
  ⟨⟨rfl, rfl⟩,
    missing_credential_500_no_upstream [] 60000 5 (some "POST") none (some okBody)
      "" [] 0 goodUp "chicken soup" (by decide) (by simp) (by decide) (by decide)
      rfl rfl (by decide)⟩

/-! ## C10 – JSON `null` body conflation -/

/-- C10: a string body (or non-empty stream body) holding the valid JSON
document `null` is reported as the 400 Invalid-JSON-body outcome: the
normalizer parses it to `null`, which is indistinguishable from its
parse-failure signal. -/
theorem json_null_body_reported_invalid (allowed : List String) (W : Int)
    (C : Nat) (key : Option String) (o : Option String) (sd : String)
    (entries : List Int) (now : Int) (up : UpstreamBehavior)
    (hAdmit : originDenied allowed (o.getD "") = false)
    (hRate : (takeRateLimitSlot W C entries now).1 = true) :
    jsonParse "null" = some Json.null
    ∧ parseBody (some (Json.str "null")) sd = Json.null
    ∧ handler allowed W C key ⟨some "POST", o, some (Json.str "null"), sd⟩ entries now up =
        Except.ok ⟨respond (corsFor (o.getD "")) 400 (errJson "Invalid JSON body."),
          (takeRateLimitSlot W C entries now).2, true, false⟩
    ∧ parseBody none "null" = Json.null
    ∧ handler allowed W C key ⟨some "POST", o, none, "null"⟩ entries now up =
        Except.ok ⟨respond (corsFor (o.getD "")) 400 (errJson "Invalid JSON body."),
          (takeRateLimitSlot W C entries now).2, true, false⟩ := by
  have hpb1 : parseBody (some (Json.str "null")) sd = Json.null := rfl
  have hpb2 : parseBody (none : Option Json) "null" = Json.null := rfl
  refine ⟨rfl, hpb1, ?_, hpb2, ?_⟩
  · simp [handler, hAdmit, methodNotPost, hRate, hpb1, isNull]
  · simp [handler, hAdmit, methodNotPost, hRate, hpb2, isNull]

/-- Witness for C10 at a fully concrete request. -/
theorem json_null_body_reported_invalid_witness :
    jsonParse "null" = some Json.null
    ∧ handler [] 60000 5 (some "k")
        ⟨some "POST", none, some (Json.str "null"), ""⟩ [] 0 goodUp =
      Except.ok ⟨respond (corsFor "") 400 (errJson "Invalid JSON body."),
        (takeRateLimitSlot 60000 5 [] 0).2, true, false⟩ :=
  ⟨(json_null_body_reported_invalid [] 60000 5 (some "k") none "" [] 0 goodUp
      (by decide) (by decide)).1,
    (json_null_body_reported_invalid [] 60000 5 (some "k") none "" [] 0 goodUp
      (by decide) (by decide)).2.2.1⟩

/-! ## C4 – origin admission -/

/-- C4 counterexample: with the non-empty allow-list
`["https://a.example"]`, a request presenting the empty-string origin —
a present origin that is not a member of the list — is admitted (the
pipeline proceeds past the origin guard to the method check, answering
405), not rejected with 403, refuting the claimed iff for present
origins. -/
theorem empty_origin_admitted_counterexample :
    (handler ["https://a.example"] 60000 5 (some "k")
        ⟨some "GET", some "", none, ""⟩ [] 0 (UpstreamBehavior.throws "x")).map
      (fun out => out.resp.status) = Except.ok 405
    ∧ ¬ ("" ∈ (["https://a.example"] : List String))
    ∧ (405 : Nat) ≠ 403 :=
  ⟨rfl, by decide, by decide⟩

/-- C4 (amended): if the allow-list is empty every request is admitted;
a request with an absent or empty-string origin is always admitted (the
code treats a falsy origin as absent); a request with a present
non-empty origin against a non-empty allow-list is rejected — the full
403 outcome with no further pipeline processing — exactly when the
origin is not a member of the list; and the decision is independent of
the request method. -/
theorem origin_admission_characterization (allowed : List String) (W : Int)
    (C : Nat) (key : Option String) (o : Option String) (b : Option Json)
    (sd : String) (entries : List Int) (now : Int) (up : UpstreamBehavior) :
    (∀ m, handler allowed W C key ⟨m, o, b, sd⟩ entries now up =
        Except.ok ⟨respond [] 403 (errJson "Origin not allowed."), entries, false, false⟩
      ↔ originDenied allowed (o.getD "") = true)
    ∧ (originDenied allowed (o.getD "") = true ↔
        ∃ og, o = some og ∧ og ≠ "" ∧ allowed ≠ [] ∧ og ∉ allowed)
    ∧ (allowed = [] → originDenied allowed (o.getD "") = false)
    ∧ ((o = none ∨ o = some "") → originDenied allowed (o.getD "") = false)
    ∧ (∀ m₁ m₂, (handler allowed W C key ⟨m₁, o, b, sd⟩ entries now up =
          Except.ok ⟨respond [] 403 (errJson "Origin not allowed."), entries, false, false⟩)
        ↔ (handler allowed W C key ⟨m₂, o, b, sd⟩ entries now up =
          Except.ok ⟨respond [] 403 (errJson "Origin not allowed."), entries, false, false⟩)) := by
  have main : ∀ m, handler allowed W C key ⟨m, o, b, sd⟩ entries now up =
      Except.ok ⟨respond [] 403 (errJson "Origin not allowed."), entries, false, false⟩
      ↔ originDenied allowed (o.getD "") = true := by
    intro m
    by_cases hOD : originDenied allowed (o.getD "") = true
    · simp [handler, hOD]
    · rw [Bool.not_eq_true] at hOD
      rw [hOD]
      simp only [Bool.false_eq_true, iff_false]
      intro hEq
      revert hEq
      simp only [handler, hOD, Bool.false_eq_true, if_false]
      repeat' split
      all_goals simp [respond]
  have hchar : originDenied allowed (o.getD "") = true ↔
      ∃ og, o = some og ∧ og ≠ "" ∧ allowed ≠ [] ∧ og ∉ allowed := by
    cases o with
    | none => simp [originDenied, isOriginAllowed]
    | some og =>
      by_cases hg : og = ""
      · subst hg
        simp [originDenied, isOriginAllowed]
      · by_cases hal : allowed = []
        · subst hal
          simp [originDenied, isOriginAllowed, hg]
        · simp [originDenied, isOriginAllowed, hg, hal, List.elem_iff]
  refine ⟨main, hchar, ?_, ?_, fun m₁ m₂ => (main m₁).trans (main m₂).symm⟩
  · intro hal
    subst hal
    simp [originDenied, isOriginAllowed]
  · rintro (h | h) <;> subst h <;> simp [originDenied]

/-- Witness for C4: a concrete rejected origin against the allow-list,
established through the characterization. -/
theorem origin_admission_characterization_witness :
    handler ["https://a.example"] 60000 5 (some "k")
        ⟨some "POST", some "https://evil.example", none, ""⟩ [] 0 goodUp =
      Except.ok ⟨respond [] 403 (errJson "Origin not allowed."), [], false, false⟩ :=
  ((origin_admission_characterization ["https://a.example"] 60000 5 (some "k")
      (some "https://evil.example") none "" [] 0 goodUp).1 (some "POST")).2
    (by decide)

/-! ## C2 – success emission -/

/-- C2 counterexample: a full request reaching success emission whose
returned object has a `secondary` of length 0, not 2 — the code checks
only that `secondary` is an array, never its length or element types,
so the declared-interface part of the claim fails. -/
theorem success_emission_length_two_counterexample :
    (handler [] 60000 5 (some "k") ⟨some "POST", none, some okBody, ""⟩ [] 0
        (UpstreamBehavior.success
          (mkCompletion "\x7b\"primary\":\"R01\",\"secondary\":[]\x7d"))).map
      (fun out => (out.resp.status, out.resp.body)) =
      Except.ok (200, some (Json.obj [("primary", Json.str "R01"),
        ("secondary", Json.arr [])]))
    ∧ List.length ([] : List Json) ≠ 2 :=
  ⟨rfl, by decide⟩

/-- C2 (amended): every success (200) emission returns verbatim the
object parsed from the fence-stripped completion text, and that object
passed the structural validation – `primary` is a string and `secondary`
is an array; the length-exactly-2 and string-element parts of the
declared interface are not enforced.  The hypothesis on `up` records
that a non-success upstream HTTP status is never in the 2xx range. -/
theorem success_emission_verbatim_valid (allowed : List String) (W : Int)
    (C : Nat) (key : Option String) (req : Request) (entries : List Int)
    (now : Int) (up : UpstreamBehavior) (out : HandlerOutput)
    (hUp : ∀ st txt, up = UpstreamBehavior.httpError st txt → st < 200 ∨ 300 ≤ st)
    (hOk : handler allowed W C key req entries now up = Except.ok out)
    (hSt : out.resp.status = 200) :
    ∃ data raw parsed, up = UpstreamBehavior.success data
      ∧ extractRaw data = Except.ok (some raw)
      ∧ jsonParse (jsTrim (jsStripFences raw)) = some parsed
      ∧ validateShape parsed = Except.ok true
      ∧ out.resp.body = some parsed := by
  simp only [handler] at hOk
  split at hOk
  · injection hOk with h; subst h; simp [respond] at hSt
  split at hOk
  · injection hOk with h; subst h; simp at hSt
  split at hOk
  · injection hOk with h; subst h; simp [respond] at hSt
  split at hOk
  · injection hOk with h; subst h; simp [respond] at hSt
  split at hOk
  · injection hOk with h; subst h; simp [respond] at hSt
  split at hOk
  · exact absurd hOk (by simp)
  split at hOk
  · injection hOk with h; subst h; simp [respond] at hSt
  split at hOk
  · injection hOk with h; subst h; simp [respond] at hSt
  injection hOk with h
  subst h
  simp only at hSt
  cases up with
  | throws msg => simp [processUpstream, respond] at hSt
  | httpError st txt =>
    have hrange := hUp st txt rfl
    simp [processUpstream, respond] at hSt
    omega
  | success data =>
    refine ⟨data, ?_⟩
    rcases hex : extractRaw data with msg | raw0
    · simp [processUpstream, hex, respond] at hSt
    · rcases raw0 with _ | raw
      · simp [processUpstream, hex, respond] at hSt
      · by_cases hraw : raw = ""
        · subst hraw
          simp [processUpstream, hex, respond] at hSt
        · rcases hp : jsonParse (jsTrim (jsStripFences raw)) with _ | parsed
          · simp [processUpstream, hex, hraw, hp, respond] at hSt
          · rcases hv : validateShape parsed with msg | bv
            · simp [processUpstream, hex, hraw, hp, hv, respond] at hSt
            · cases bv with
              | false => simp [processUpstream, hex, hraw, hp, hv, respond] at hSt
              | true =>
                exact ⟨raw, parsed, rfl, rfl, hp, hv,
                  by simp [processUpstream, hex, hraw, hp, hv, respond]⟩

/-- Witness for C2: the spec-example request, whose 200 emission is the
verbatim parsed object. -/
theorem success_emission_verbatim_valid_witness :
    ∃ data raw parsed, goodUp = UpstreamBehavior.success data
      ∧ extractRaw data = Except.ok (some raw)
      ∧ jsonParse (jsTrim (jsStripFences raw)) = some parsed
      ∧ validateShape parsed = Except.ok true
      ∧ (HandlerOutput.mk
          (respond [] 200 (Json.obj [("primary", Json.str "R01"),
            ("secondary", Json.arr [Json.str "R02", Json.str "R03"])]))
          [0] true true).resp.body = some parsed :=
  success_emission_verbatim_valid [] 60000 5 (some "k")
    ⟨some "POST", none, some okBody, ""⟩ [] 0 goodUp _
    (by intro st txt h; simp [goodUp, mkCompletion] at h) rfl rfl

/-! ## C5 – upstream-response validation mapping -/

/-- Claim-side predicate: the parsed value has a string `primary`. -/
def primaryIsString (parsed : Json) : Bool :=
  match jmem parsed "primary" with
  | some (Json.str _) => true
  | _ => false

/-- Claim-side predicate: the parsed value has an array `secondary`. -/
def secondaryIsArray (parsed : Json) : Bool :=
  match jmem parsed "secondary" with
  | some (Json.arr _) => true
  | _ => false

/-- The outcome categories the claim enumerates for upstream-response
validation, plus the caught-failure (500) category the amendment adds. -/
inductive UpstreamOutcome where
  | relayedError (status : Nat) (rawBody : String)
  | emptyResponse
  | unparsable
  | unexpectedData
  | caughtFailure (msg : String)
  | acceptedVerbatim (parsed : Json)

/-- Classification of an upstream reply following the amended claim: a
non-success status is relayed with its raw body text; an absent or empty
completion text is the empty-response category; text that fails JSON
parsing after fence stripping is unparsable; a completion parsing to
JSON `null` is a caught failure (the validation property access throws
inside the try block), as is a thrown exchange step or a non-string
`content` value; a parsed value without a string `primary` or an array
`secondary` is unexpected data; everything else is accepted verbatim. -/
def classifyUpstream : UpstreamBehavior → UpstreamOutcome
  | UpstreamBehavior.throws msg => UpstreamOutcome.caughtFailure msg
  | UpstreamBehavior.httpError status bodyText =>
    UpstreamOutcome.relayedError status bodyText
  | UpstreamBehavior.success data =>
    match extractRaw data with
    | Except.error msg => UpstreamOutcome.caughtFailure msg
    | Except.ok raw =>
      if raw.getD "" = "" then UpstreamOutcome.emptyResponse
      else
        match jsonParse (jsTrim (jsStripFences (raw.getD ""))) with
        | none => UpstreamOutcome.unparsable
        | some Json.null =>
          UpstreamOutcome.caughtFailure
            "Cannot read properties of null (reading primary)"
        | some parsed =>
          if primaryIsString parsed && secondaryIsArray parsed then
            UpstreamOutcome.acceptedVerbatim parsed
          else UpstreamOutcome.unexpectedData

/-- The response the (amended) claim assigns to each outcome category:
relayed upstream status with raw body in `details`; 502 for the empty,
unparsable and unexpected-data categories; 500 with the failure message
for caught failures; 200 verbatim for accepted objects. -/
def outcomeResponse (cors : List (String × String)) : UpstreamOutcome → Response
  | UpstreamOutcome.relayedError status rawBody =>
    respond cors status (errJsonD "ChatGPT API error." rawBody)
  | UpstreamOutcome.emptyResponse =>
    respond cors 502 (errJson "ChatGPT returned an empty response.")
  | UpstreamOutcome.unparsable =>
    respond cors 502 (errJson "Unable to parse ChatGPT ranking response.")
  | UpstreamOutcome.unexpectedData =>
    respond cors 502 (errJson "ChatGPT returned unexpected data.")
  | UpstreamOutcome.caughtFailure msg =>
    respond cors 500 (errJsonD "Unable to complete ranking request." msg)
  | UpstreamOutcome.acceptedVerbatim parsed => respond cors 200 parsed

/-- The structural validation agrees with the claim-side predicates on
every non-null parsed value. -/
theorem validateShape_eq_of_ne_null (parsed : Json) (h : parsed ≠ Json.null) :
    validateShape parsed =
      Except.ok (primaryIsString parsed && secondaryIsArray parsed) := by
  cases parsed <;> first | exact absurd rfl h | rfl

/-- C5 counterexample: the completion text `null` parses successfully,
but the validation then dereferences `null` and throws: the request ends
in the 500 catch-all, not the claimed 502 unexpected-data outcome. -/
theorem parsed_null_yields_500_counterexample :
    processUpstream [] (UpstreamBehavior.success (mkCompletion "null")) =
      respond [] 500 (errJsonD "Unable to complete ranking request."
        "Cannot read properties of null (reading primary)")
    ∧ (500 : Nat) ≠ 502 :=
  ⟨rfl, by decide⟩

/-- C5 (amended): upstream-response processing maps every upstream reply
to exactly one outcome of the claimed enumeration, amended with the 500
caught-failure category for completions parsing to JSON `null` (and for
thrown exchange steps / non-string `content` values); returned ids are
never cross-checked against the catalog (the accepted object is relayed
verbatim). -/
theorem upstream_validation_mapping (cors : List (String × String))
    (up : UpstreamBehavior) :
    processUpstream cors up = outcomeResponse cors (classifyUpstream up) := by
  cases up with
  | throws msg => rfl
  | httpError st txt => rfl
  | success data =>
    simp only [processUpstream, classifyUpstream]
    rcases hex : extractRaw data with msg | raw
    · simp [outcomeResponse]
    · by_cases hraw : raw.getD "" = ""
      · simp [hraw, outcomeResponse]
      · simp only [hraw, if_false]
        rcases hp : jsonParse (jsTrim (jsStripFences (raw.getD ""))) with _ | parsed
        · simp [hp, outcomeResponse]
        · simp only [hp]
          by_cases hnull : parsed = Json.null
          · subst hnull
            simp [validateShape, outcomeResponse]
          · rw [validateShape_eq_of_ne_null parsed hnull]
            cases hb : primaryIsString parsed && secondaryIsArray parsed <;>
              simp [hb, outcomeResponse]

/-! ## C9 – fence stripping versus direct parsing

The regex replacement removes every occurrence of the two fence patterns,
scanning leftmost and non-overlapping.  The lemmas below establish that a
separator character that can take part in neither pattern splits the scan,
and that trimming commutes with stripping across whitespace boundaries.
-/

/-- A character failing all roles in the fence patterns. -/
def fenceNeutral (c : Char) : Prop :=
  c ≠ bq ∧ c.toLower ≠ 'j' ∧ c.toLower ≠ 's' ∧ c.toLower ≠ 'o' ∧ c.toLower ≠ 'n'

theorem ws_fenceNeutral (c : Char) (h : isWs c = true) : fenceNeutral c := by
  have : c = ' ' ∨ c = Char.ofNat 9 ∨ c = Char.ofNat 10 ∨ c = Char.ofNat 13 := by
    simpa [isWs, or_assoc] using h
  rcases this with rfl | rfl | rfl | rfl <;> exact ⟨by decide, by decide, by decide, by decide, by decide⟩

theorem stripFences_cons_of_ne (a : Char) (l : List Char) (ha : a ≠ bq) :
    stripFences (a :: l) = a :: stripFences l := by
  rcases l with _ | ⟨x1, _ | ⟨x2, _ | ⟨x3, _ | ⟨x4, _ | ⟨x5, _ | ⟨x6, r⟩⟩⟩⟩⟩⟩ <;>
    simp [stripFences, ha]

theorem stripFences_cons3_ne (a b d : Char) (l : List Char)
    (h : ¬(a = bq ∧ b = bq ∧ d = bq)) :
    stripFences (a :: b :: d :: l) = a :: stripFences (b :: d :: l) := by
  rcases l with _ | ⟨x1, _ | ⟨x2, _ | ⟨x3, _ | ⟨x4, r⟩⟩⟩⟩ <;>
    simp [stripFences, h]

theorem stripFences_fence3 (l : List Char)
    (h : ∀ c1 c2 c3 c4 r, l = c1 :: c2 :: c3 :: c4 :: r → isJsonWord c1 c2 c3 c4 = false) :
    stripFences (bq :: bq :: bq :: l) = stripFences l := by
  rcases l with _ | ⟨x1, _ | ⟨x2, _ | ⟨x3, _ | ⟨x4, r⟩⟩⟩⟩
  · simp [stripFences]
  · simp [stripFences]
  · simp [stripFences]
  · simp [stripFences]
  · simp [stripFences, h x1 x2 x3 x4 r rfl]

theorem stripFences_append_sep (c : Char) (hc : fenceNeutral c) :
    ∀ (n : Nat) (t u : List Char), t.length ≤ n →
      stripFences (t ++ c :: u) = stripFences t ++ c :: stripFences u := by
  obtain ⟨hbq, hj, hs, ho, hn⟩ := hc
  intro n
  induction n with
  | zero =>
    intro t u ht
    have : t = [] := List.length_eq_zero.1 (Nat.le_zero.1 ht)
    subst this
    rw [List.nil_append, stripFences_cons_of_ne c u hbq]
    rfl
  | succ n ih =>
    intro t u ht
    rcases t with _ | ⟨a, _ | ⟨b, _ | ⟨d, rest⟩⟩⟩
    · rw [List.nil_append, stripFences_cons_of_ne c u hbq]
      rfl
    · -- t = [a]
      rcases u with _ | ⟨u0, u'⟩
      · simp [stripFences, hbq]
      · rw [show ([a] ++ c :: u0 :: u') = a :: c :: u0 :: u' from rfl,
          stripFences_cons3_ne a c u0 u' (by simp [hbq]),
          stripFences_cons_of_ne c (u0 :: u') hbq]
        rfl
    · -- t = [a, b]
      rcases u with _ | ⟨u0, u'⟩
      · simp [stripFences, hbq]
      · rw [show ([a, b] ++ c :: u0 :: u') = a :: b :: c :: (u0 :: u') from rfl,
          stripFences_cons3_ne a b c (u0 :: u') (by simp [hbq]),
          stripFences_cons3_ne b c u0 u' (by simp [hbq]),
          stripFences_cons_of_ne c (u0 :: u') hbq]
        rfl
    · -- t = a :: b :: d :: rest
      by_cases h3 : a = bq ∧ b = bq ∧ d = bq
      · obtain ⟨rfl, rfl, rfl⟩ := h3
        rcases rest with _ | ⟨x1, _ | ⟨x2, _ | ⟨x3, _ | ⟨x4, r⟩⟩⟩⟩
        · -- t = three backquotes
          rw [show (([bq, bq, bq] : List Char) ++ c :: u) = bq :: bq :: bq :: (c :: u) from rfl,
            stripFences_fence3 (c :: u) ?hwin, stripFences_cons_of_ne c u hbq]
          · rfl
          case hwin =>
            intro c1 c2 c3 c4 r heq
            injection heq with h1 h2
            subst h1
            simp [isJsonWord, hj]
        · rw [show (([bq, bq, bq, x1] : List Char) ++ c :: u) = bq :: bq :: bq :: (x1 :: c :: u) from rfl,
            stripFences_fence3 (x1 :: c :: u) ?hwin,
            show stripFences ([bq, bq, bq, x1] : List Char) = stripFences [x1] from by simp [stripFences]]
          · exact ih [x1] u (by simp at ht ⊢; omega)
          case hwin =>
            intro c1 c2 c3 c4 r heq
            injection heq with h1 h2
            injection h2 with h2a h2b
            subst h1; subst h2a
            simp [isJsonWord, hs]
        · rw [show (([bq, bq, bq, x1, x2] : List Char) ++ c :: u) = bq :: bq :: bq :: (x1 :: x2 :: c :: u) from rfl,
            stripFences_fence3 (x1 :: x2 :: c :: u) ?hwin,
            show stripFences ([bq, bq, bq, x1, x2] : List Char) = stripFences [x1, x2] from by simp [stripFences]]
          · exact ih [x1, x2] u (by simp at ht ⊢; omega)
          case hwin =>
            intro c1 c2 c3 c4 r heq
            injection heq with h1 h2
            injection h2 with h2a h2b
            injection h2b with h2c h2d
            subst h1; subst h2a; subst h2c
            simp [isJsonWord, ho]
        · rw [show (([bq, bq, bq, x1, x2, x3] : List Char) ++ c :: u) = bq :: bq :: bq :: (x1 :: x2 :: x3 :: c :: u) from rfl,
            stripFences_fence3 (x1 :: x2 :: x3 :: c :: u) ?hwin,
            show stripFences ([bq, bq, bq, x1, x2, x3] : List Char) = stripFences [x1, x2, x3] from by simp [stripFences]]
          · exact ih [x1, x2, x3] u (by simp at ht ⊢; omega)
          case hwin =>
            intro c1 c2 c3 c4 r heq
            injection heq with h1 h2
            injection h2 with h2a h2b
            injection h2b with h2c h2d
            injection h2d with h2e h2f
            subst h1; subst h2a; subst h2c; subst h2e
            simp [isJsonWord, hn]
        · -- rest has at least four characters: the seven-character arm fires
          by_cases hjw : isJsonWord x1 x2 x3 x4 = true
          · rw [show ((bq :: bq :: bq :: x1 :: x2 :: x3 :: x4 :: r) ++ c :: u) =
                bq :: bq :: bq :: x1 :: x2 :: x3 :: x4 :: (r ++ c :: u) from by simp,
              show stripFences (bq :: bq :: bq :: x1 :: x2 :: x3 :: x4 :: (r ++ c :: u)) =
                stripFences (r ++ c :: u) from by simp [stripFences, hjw],
              show stripFences (bq :: bq :: bq :: x1 :: x2 :: x3 :: x4 :: r) =
                stripFences r from by simp [stripFences, hjw]]
            exact ih r u (by simp at ht ⊢; omega)
          · rw [show ((bq :: bq :: bq :: x1 :: x2 :: x3 :: x4 :: r) ++ c :: u) =
                bq :: bq :: bq :: x1 :: x2 :: x3 :: x4 :: (r ++ c :: u) from by simp,
              show stripFences (bq :: bq :: bq :: x1 :: x2 :: x3 :: x4 :: (r ++ c :: u)) =
                stripFences (x1 :: x2 :: x3 :: x4 :: (r ++ c :: u)) from by simp [stripFences, hjw],
              show stripFences (bq :: bq :: bq :: x1 :: x2 :: x3 :: x4 :: r) =
                stripFences (x1 :: x2 :: x3 :: x4 :: r) from by simp [stripFences, hjw],
              show (x1 :: x2 :: x3 :: x4 :: (r ++ c :: u)) =
                (x1 :: x2 :: x3 :: x4 :: r) ++ c :: u from by simp]
            exact ih (x1 :: x2 :: x3 :: x4 :: r) u (by simp at ht ⊢; omega)
      · rw [show ((a :: b :: d :: rest) ++ c :: u) = a :: b :: d :: (rest ++ c :: u) from by simp,
          stripFences_cons3_ne a b d (rest ++ c :: u) h3,
          stripFences_cons3_ne a b d rest h3,
          show (b :: d :: (rest ++ c :: u)) = (b :: d :: rest) ++ c :: u from by simp,
          ih (b :: d :: rest) u (by simp at ht ⊢; omega)]
        rfl



theorem stripFences_ws (l : List Char) (h : ∀ c ∈ l, isWs c = true) :
    stripFences l = l := by
  induction l with
  | nil => rfl
  | cons a l ih =>
    rw [stripFences_cons_of_ne a l (ws_fenceNeutral a (h a (by simp))).1,
      ih (fun c hc => h c (by simp [hc]))]

theorem trimChars_cons_ws (c : Char) (h : isWs c = true) (l : List Char) :
    trimChars (c :: l) = trimChars l := by
  simp [trimChars, List.dropWhile_cons_of_pos h]

theorem trimChars_append_ws (c : Char) (h : isWs c = true) (l : List Char) :
    trimChars (l ++ [c]) = trimChars l := by
  unfold trimChars
  rw [List.dropWhile_append]
  by_cases hl : ((l.dropWhile fun x => isWs x).isEmpty) = true
  · simp only [hl, if_true]
    rw [List.isEmpty_iff] at hl
    simp [hl, List.dropWhile_cons_of_pos h]
  · rw [Bool.not_eq_true] at hl
    simp only [hl, Bool.false_eq_true, if_false]
    rw [List.reverse_append]
    simp [List.dropWhile_cons_of_pos h]

theorem trimChars_ws_front (w : List Char) :
    (∀ c ∈ w, isWs c = true) → ∀ l, trimChars (w ++ l) = trimChars l := by
  induction w with
  | nil => intro _ l; rfl
  | cons a ys ih =>
    intro h l
    rw [List.cons_append, trimChars_cons_ws a (h a (by simp))]
    exact ih (fun c hc => h c (by simp [hc])) l

theorem trimChars_append_ws_list (w : List Char) :
    (∀ c ∈ w, isWs c = true) → ∀ l, trimChars (l ++ w) = trimChars l := by
  induction w using List.reverseRecOn with
  | nil => intro _ l; simp
  | append_singleton ys y ih =>
    intro h l
    rw [show l ++ (ys ++ [y]) = (l ++ ys) ++ [y] from by simp,
      trimChars_append_ws y (h y (by simp)) (l ++ ys)]
    exact ih (fun c hc => h c (by simp [hc])) l



theorem stripFences_ws_front (w : List Char) :
    (∀ c ∈ w, isWs c = true) → ∀ l, stripFences (w ++ l) = w ++ stripFences l := by
  induction w with
  | nil => intro _ l; rfl
  | cons a ys ih =>
    intro h l
    rw [List.cons_append, stripFences_cons_of_ne a _ (ws_fenceNeutral a (h a (by simp))).1,
      ih (fun c hc => h c (by simp [hc])) l]
    rfl

theorem stripFences_ws_suffix (w : List Char) (hw : ∀ c ∈ w, isWs c = true)
    (l : List Char) : stripFences (l ++ w) = stripFences l ++ w := by
  rcases w with _ | ⟨c, u⟩
  · simp
  · rw [stripFences_append_sep c (ws_fenceNeutral c (hw c (by simp))) l.length l u le_rfl,
      stripFences_ws u (fun x hx => hw x (by simp [hx]))]

theorem trim_strip_trim (l : List Char) :
    trimChars (stripFences (trimChars l)) = trimChars (stripFences l) := by
  have hdec : l = (l.takeWhile fun c => isWs c) ++ (l.dropWhile fun c => isWs c) :=
    (List.takeWhile_append_dropWhile _ _).symm
  set m := l.dropWhile fun c => isWs c with hm
  have hw1 : ∀ c ∈ (l.takeWhile fun c => isWs c), isWs c = true := fun c hc =>
    List.mem_takeWhile_imp hc
  have hmdec : m = (m.reverse.dropWhile fun c => isWs c).reverse ++
      (m.reverse.takeWhile fun c => isWs c).reverse := by
    conv_lhs => rw [← List.reverse_reverse m]
    conv_lhs => rw [← List.takeWhile_append_dropWhile (fun c => isWs c) m.reverse]
    rw [List.reverse_append]
  set core := (m.reverse.dropWhile fun c => isWs c).reverse with hcore
  set wr := (m.reverse.takeWhile fun c => isWs c).reverse with hwr
  have hw2 : ∀ c ∈ wr, isWs c = true := by
    intro c hc
    rw [hwr, List.mem_reverse] at hc
    exact List.mem_takeWhile_imp hc
  have htriml : trimChars l = core := by
    rw [trimChars, ← hm, hcore]
  calc trimChars (stripFences (trimChars l))
      = trimChars (stripFences core) := by rw [htriml]
    _ = trimChars (stripFences l) := by
        conv_rhs => rw [hdec]
        rw [stripFences_ws_front _ hw1 m, trimChars_ws_front _ hw1]
        conv_rhs => rw [hmdec]
        rw [stripFences_ws_suffix wr hw2 core, trimChars_append_ws_list wr hw2]

theorem fencedForm_data (t : String) :
    (fencedForm t).data = "```json\n".data ++ t.data ++ "\n```".data := by
  simp [fencedForm]

theorem stripFences_fencedData (t : List Char) :
    stripFences ("```json\n".data ++ t ++ "\n```".data) =
      Char.ofNat 10 :: stripFences t ++ [Char.ofNat 10] := by
  have h1 : "```json\n".data ++ t ++ "\n```".data =
      bq :: bq :: bq :: 'j' :: 's' :: 'o' :: 'n' ::
        (Char.ofNat 10 :: (t ++ (Char.ofNat 10 :: [bq, bq, bq]))) := by
    simp [bq]
  rw [h1]
  rw [show stripFences (bq :: bq :: bq :: 'j' :: 's' :: 'o' :: 'n' ::
      (Char.ofNat 10 :: (t ++ (Char.ofNat 10 :: [bq, bq, bq])))) =
      stripFences (Char.ofNat 10 :: (t ++ (Char.ofNat 10 :: [bq, bq, bq]))) from by
    simp [stripFences, isJsonWord]]
  rw [stripFences_cons_of_ne _ _ (by decide),
    stripFences_append_sep (Char.ofNat 10) (ws_fenceNeutral _ (by decide)) t.length t _ le_rfl]
  rfl

theorem trimChars_nl_wrap (l : List Char) :
    trimChars (Char.ofNat 10 :: stripFences l ++ [Char.ofNat 10]) = trimChars (stripFences l) := by
  rw [show Char.ofNat 10 :: stripFences l ++ [Char.ofNat 10] =
      Char.ofNat 10 :: (stripFences l ++ [Char.ofNat 10]) from rfl,
    trimChars_cons_ws _ (by decide), trimChars_append_ws _ (by decide)]

theorem trimChars_eq_self_sandwich (a b : Char) (l : List Char)
    (ha : isWs a = false) (hb : isWs b = false) :
    trimChars (a :: l ++ [b]) = a :: l ++ [b] := by
  unfold trimChars
  rw [show a :: l ++ [b] = a :: (l ++ [b]) from rfl,
    List.dropWhile_cons_of_neg (by simp [ha]),
    show (a :: (l ++ [b])).reverse = b :: (a :: l).reverse from by simp,
    List.dropWhile_cons_of_neg (by simp [hb])]
  simp

theorem jsTrim_fenced (t : String) : jsTrim (fencedForm t) = fencedForm t := by
  have hdata : (fencedForm t).data =
      (bq :: ("``json\n".data ++ t.data ++ "\n``".data)) ++ [bq] := by
    rw [fencedForm_data]
    simp [bq]
  show String.mk (trimChars (fencedForm t).data) = fencedForm t
  rw [hdata, trimChars_eq_self_sandwich bq bq _ (by decide) (by decide), ← hdata]



/-- C9 counterexample: for the empty completion text, the unfenced form
hits the empty-response check (502 "ChatGPT returned an empty response.")
while its fenced form survives that check, strips down to the empty
string and fails parsing (502 "Unable to parse ChatGPT ranking
response.") – two different final responses, refuting the claim at
`t = ""`. -/
theorem fence_empty_text_counterexample :
    processUpstream [] (UpstreamBehavior.success (mkCompletion (fencedForm ""))) =
      respond [] 502 (errJson "Unable to parse ChatGPT ranking response.")
    ∧ processUpstream [] (UpstreamBehavior.success (mkCompletion "")) =
      respond [] 502 (errJson "ChatGPT returned an empty response.")
    ∧ "Unable to parse ChatGPT ranking response." ≠
        "ChatGPT returned an empty response." :=
  ⟨rfl, rfl, by decide⟩

/-- C9 (amended): for every completion text `t` whose trimmed form is
non-empty, processing the fenced form (`t` wrapped in the code-fence
markers with newlines) yields exactly the same final outcome – parsed
value and response – as processing the unfenced `t`; when `t` trims to
empty the two sides differ only in which 502 error is emitted (see the
counterexample). -/
theorem fenced_unfenced_equivalent (cors : List (String × String)) (t : String)
    (h : jsTrim t ≠ "") :
    processUpstream cors (UpstreamBehavior.success (mkCompletion (fencedForm t))) =
      processUpstream cors (UpstreamBehavior.success (mkCompletion t)) := by
  have hex_f : extractRaw (mkCompletion (fencedForm t)) =
      Except.ok (some (jsTrim (fencedForm t))) := rfl
  have hex_u : extractRaw (mkCompletion t) = Except.ok (some (jsTrim t)) := rfl
  have htf : jsTrim (fencedForm t) = fencedForm t := jsTrim_fenced t
  have hne_f : fencedForm t ≠ "" := by
    intro hcon
    have hd : (fencedForm t).data = [] := by rw [hcon]
    rw [fencedForm_data t] at hd
    simp at hd
  have hclean : jsTrim (jsStripFences (fencedForm t)) =
      jsTrim (jsStripFences (jsTrim t)) := by
    show String.mk (trimChars (stripFences (fencedForm t).data)) =
      String.mk (trimChars (stripFences (trimChars t.data)))
    rw [fencedForm_data, stripFences_fencedData, trimChars_nl_wrap, trim_strip_trim]
  simp only [processUpstream, hex_f, hex_u, Option.getD_some]
  rw [htf]
  rw [if_neg hne_f, if_neg h, hclean]

/-- Witness for C9 at the completion text `1` (non-empty after
trimming). -/
theorem fenced_unfenced_equivalent_witness :
    jsTrim "1" ≠ ""
    ∧ processUpstream [] (UpstreamBehavior.success (mkCompletion (fencedForm "1"))) =
      processUpstream [] (UpstreamBehavior.success (mkCompletion "1")) :=
  ⟨by decide, fenced_unfenced_equivalent [] "1" (by decide)⟩

end RankApi
